import Mathlib

/-!
Shallow embedding of `src/app/room_model.py` (room lifecycle and membership
model of the game-server repository).

The database is modelled as an explicit state (`DB`): a list of `room` rows,
a list of `room_user` rows, and the AUTO_INCREMENT counter for `room.room_id`.
Each Python function becomes a Lean function that threads this state.

SQL semantics embedded here:
- `CursorResult.one()` (SQLAlchemy) returns the single row of a result set and
  raises `NoResultFound` when the set is empty and `MultipleResultsFound` when
  it has more than one row; it never returns `None`.  This is `pyOne`.
- `INSERT` into `room_user` fails with an integrity error when the primary key
  `(room_id, user_id)` (see the `# primary key` comments on
  `RoomUserDBTableName`) already exists; otherwise it appends the row.
- `UPDATE ... WHERE` touching no rows is not an error.
- `with engine.begin():` commits when the block is left normally and rolls
  back only when an exception propagates out of the block.  `join_room`
  catches all exceptions INSIDE the block and returns normally, so statements
  executed before the failure are committed; this structure is mirrored in
  `join_room_fault` below.

Errors raised by the storage layer are modelled with `Except DBError`.
-/

/-- Module-level constant `max_user_count: int = 4` of `room_model.py`. -/
def max_user_count : Int := 4

/-- Enum `LiveDifficulty` (normal = 1, hard = 2). -/
inductive LiveDifficulty
  | normal
  | hard
  deriving DecidableEq, Repr

/-- Integer value of a `LiveDifficulty`, as stored by `int(live_difficulty)`. -/
def LiveDifficulty.toNat : LiveDifficulty → Nat
  | .normal => 1
  | .hard => 2

/-- Enum `JoinRoomResult` (Ok = 1, RoomFull = 2, Disbanded = 3, OhterError = 4).
The misspelling `OhterError` is the source's own name for the catch-all value. -/
inductive JoinRoomResult
  | Ok
  | RoomFull
  | Disbanded
  | OhterError
  deriving DecidableEq, Repr

/-- Enum `WaitRoomStatus` (Waiting = 1, LiveStart = 2, Dissolution = 3). -/
inductive WaitRoomStatus
  | Waiting
  | LiveStart
  | Dissolution
  deriving DecidableEq, Repr

/-- Integer value of a `WaitRoomStatus`, as stored in the `status` column. -/
def WaitRoomStatus.toNat : WaitRoomStatus → Nat
  | .Waiting => 1
  | .LiveStart => 2
  | .Dissolution => 3

/-- One row of the `room` table (columns per `RoomDBTableName`):
`room_id` bigint AUTO_INCREMENT, `live_id` bigint, `joined_user_count` bigint,
`status` int NOT NULL DEFAULT 1. -/
structure RoomRow where
  room_id : Nat
  live_id : Nat
  joined_user_count : Int
  status : Nat
  deriving DecidableEq, Repr

/-- One row of the `room_user` table, restricted to the columns the modelled
operations read or write (columns per `RoomUserDBTableName`; the judge-count
columns are never touched by any operation in `room_model.py`).
`(room_id, user_id)` is the primary key. -/
structure RoomUserRow where
  room_id : Nat
  user_id : Nat
  live_difficulty : Nat
  is_host : Bool
  deriving DecidableEq, Repr

/-- The whole stored state: both tables plus the AUTO_INCREMENT counter. -/
structure DB where
  rooms : List RoomRow
  room_users : List RoomUserRow
  next_room_id : Nat
  deriving DecidableEq, Repr

/-- The empty database; AUTO_INCREMENT starts at 1. -/
def initDB : DB := ⟨[], [], 1⟩

/-- Storage-layer failures surfaced as Python exceptions. -/
inductive DBError
  | noResultFound
  | multipleResultsFound
  | integrityError
  | injectedFault
  deriving DecidableEq, Repr

/-- `CursorResult.one()`: the unique row, or an exception. Never `None`. -/
def pyOne : List α → Except DBError α
  | [x] => .ok x
  | [] => .error .noResultFound
  | _ => .error .multipleResultsFound

/-- Rows of the `room` table selected by `WHERE room_id = :room_id`. -/
def roomsWith (db : DB) (rid : Nat) : List RoomRow :=
  db.rooms.filter (fun r => r.room_id == rid)

/-- Rows of the `room_user` table selected by `WHERE room_id = :room_id`. -/
def usersOf (db : DB) (rid : Nat) : List RoomUserRow :=
  db.room_users.filter (fun u => u.room_id == rid)

/-- Pydantic model `RoomInfo`; `max_user_count` defaults to the module
constant (4) because the SELECT never provides that attribute. -/
structure RoomInfo where
  room_id : Nat
  live_id : Nat
  joined_user_count : Int
  max_user_count : Int := 4
  deriving DecidableEq, Repr

/-- Pydantic model `RoomStatus`; `status` is kept as the raw stored integer
(pydantic coerces it to `WaitRoomStatus` preserving the value). -/
structure RoomStatus where
  room_id : Nat
  status : Nat
  deriving DecidableEq, Repr

/-- `create_room(live_id)`: INSERT a room with `joined_user_count = 0` (the
`status` column takes its DEFAULT, 1 = Waiting); returns `lastrowid`. -/
def create_room (db : DB) (live_id : Nat) : Nat × DB :=
  let room_id := db.next_room_id
  (room_id,
    { db with
      rooms := db.rooms ++ [⟨room_id, live_id, 0, WaitRoomStatus.Waiting.toNat⟩],
      next_room_id := room_id + 1 })

/-- `_update_room_user_count(conn, room_id, offset)`: SELECT the current
count (`.one()`), add `offset`, UPDATE the row. -/
def _update_room_user_count (db : DB) (room_id : Nat) (offset : Int) :
    Except DBError DB :=
  match pyOne (roomsWith db room_id) with
  | .error e => .error e
  | .ok row =>
    let joined_user_count := row.joined_user_count + offset
    .ok { db with
          rooms := db.rooms.map (fun r =>
            if r.room_id == room_id then
              { r with joined_user_count := joined_user_count }
            else r) }

/-- `_create_room_user(conn, room_id, user_id, live_difficulty, is_host)`:
INSERT one membership row; violating the `(room_id, user_id)` primary key
raises an integrity error. -/
def _create_room_user (db : DB) (room_id user_id : Nat)
    (live_difficulty : LiveDifficulty) (is_host : Bool) : Except DBError DB :=
  if db.room_users.any (fun u => u.room_id == room_id && u.user_id == user_id) then
    .error .integrityError
  else
    .ok { db with
          room_users :=
            db.room_users ++ [⟨room_id, user_id, live_difficulty.toNat, is_host⟩] }

/-- `_get_room_info_by_id(conn, room_id)`: SELECT the row, `row = result.one()`.
Since `.one()` raises instead of yielding `None`, the source's
`if row is None: return row` branch can never fire: on success the result is
always `some info` (with `max_user_count` defaulted to 4 by pydantic). -/
def _get_room_info_by_id (db : DB) (room_id : Nat) :
    Except DBError (Option RoomInfo) :=
  match pyOne (roomsWith db room_id) with
  | .error e => .error e
  | .ok row => .ok (some ⟨row.room_id, row.live_id, row.joined_user_count, max_user_count⟩)

/-- `join_room(user_id, room_id, live_difficulty, is_host)`: inside one
transaction, read the room, check capacity, insert the membership row,
increment the count; every exception is caught and turned into `OhterError`.
The branch structure mirrors the Python exactly (including the unreachable
`room_info is None` branch). -/
def join_room (db : DB) (user_id room_id : Nat)
    (live_difficulty : LiveDifficulty) (is_host : Bool) : JoinRoomResult × DB :=
  match _get_room_info_by_id db room_id with
  | .error _ => (.OhterError, db)
  | .ok none => (.Disbanded, db)
  | .ok (some room_info) =>
    if room_info.joined_user_count ≥ room_info.max_user_count then
      (.RoomFull, db)
    else
      match _create_room_user db room_id user_id live_difficulty is_host with
      | .error _ => (.OhterError, db)
      | .ok db1 =>
        match _update_room_user_count db1 room_id 1 with
        | .error _ => (.OhterError, db1)
        | .ok db2 => (.Ok, db2)

/-- The three storage statements executed by `join_room`, as points where the
environment may raise an unexpected storage error. -/
inductive JoinStep
  | selectInfo
  | insertUser
  | updateCount
  deriving DecidableEq, Repr

/-- `join_room` under an injected storage fault at one chosen step (`none`
injects no fault and coincides with `join_room`).  Because the `except`
clause is INSIDE `with engine.begin():` and returns normally, the transaction
COMMITS whatever statements already ran: a fault at `updateCount` leaves the
membership row inserted by `_create_room_user` in the stored state (`db1`). -/
def join_room_fault (db : DB) (user_id room_id : Nat)
    (live_difficulty : LiveDifficulty) (is_host : Bool)
    (fault : Option JoinStep) : JoinRoomResult × DB :=
  match (if fault = some JoinStep.selectInfo then Except.error DBError.injectedFault
         else _get_room_info_by_id db room_id) with
  | .error _ => (.OhterError, db)
  | .ok none => (.Disbanded, db)
  | .ok (some room_info) =>
    if room_info.joined_user_count ≥ room_info.max_user_count then
      (.RoomFull, db)
    else
      match (if fault = some JoinStep.insertUser then Except.error DBError.injectedFault
             else _create_room_user db room_id user_id live_difficulty is_host) with
      | .error _ => (.OhterError, db)
      | .ok db1 =>
        match (if fault = some JoinStep.updateCount then Except.error DBError.injectedFault
               else _update_room_user_count db1 room_id 1) with
        | .error _ => (.OhterError, db1)
        | .ok db2 => (.Ok, db2)

/-- Pydantic model `RoomUser` returned by `get_room_users`. -/
structure RoomUser where
  room_id : Nat
  user_id : Nat
  live_difficulty : Nat
  is_me : Bool
  is_host : Bool
  deriving DecidableEq, Repr

/-- `get_rooms_by_live_id(live_id)`: read-only listing. -/
def get_rooms_by_live_id (db : DB) (live_id : Nat) : List RoomInfo :=
  (db.rooms.filter (fun r => r.live_id == live_id)).map
    (fun row => ⟨row.room_id, row.live_id, row.joined_user_count, max_user_count⟩)

/-- `_get_room_users(conn, room_id, user_id_req)`: read-only listing with the
`is_me` flag set on the requesting user's row. -/
def get_room_users (db : DB) (room_id user_id_req : Nat) : List RoomUser :=
  (db.room_users.filter (fun u => u.room_id == room_id)).map
    (fun u => ⟨u.room_id, u.user_id, u.live_difficulty, u.user_id == user_id_req, u.is_host⟩)

/-- `_get_room_status(conn, room_id)`: SELECT `room_id, status`, `.one()`
(raises `NoResultFound` on a missing room), wrapped by `get_room_status`. -/
def get_room_status (db : DB) (room_id : Nat) : Except DBError RoomStatus :=
  match pyOne (roomsWith db room_id) with
  | .error e => .error e
  | .ok row => .ok ⟨row.room_id, row.status⟩

/-- `start_room(room_id)`: UPDATE status to `LiveStart` (2) for the matching
row; touching zero rows is not an error, and nothing is returned. -/
def start_room (db : DB) (room_id : Nat) : DB :=
  { db with
    rooms := db.rooms.map (fun r =>
      if r.room_id == room_id then
        { r with status := WaitRoomStatus.LiveStart.toNat }
      else r) }

/-- Consistency invariant: every room's `joined_user_count` equals the number
of `room_user` rows referencing it. -/
def countInvariant (db : DB) : Prop :=
  ∀ r ∈ db.rooms, r.joined_user_count = ((usersOf db r.room_id).length : Int)

/-- Capacity invariant: every room's `joined_user_count` lies in `[0, 4]`. -/
def capacityInvariant (db : DB) : Prop :=
  ∀ r ∈ db.rooms, 0 ≤ r.joined_user_count ∧ r.joined_user_count ≤ max_user_count

/-- Structural invariant maintained by the write operations: room ids are
unique and below the AUTO_INCREMENT counter, membership rows reference only
allocated ids, and the two invariants above hold. -/
def DBInv (db : DB) : Prop :=
  (db.rooms.map (fun r => r.room_id)).Nodup ∧
  (∀ r ∈ db.rooms, r.room_id < db.next_room_id) ∧
  (∀ u ∈ db.room_users, u.room_id < db.next_room_id) ∧
  countInvariant db ∧ capacityInvariant db

/-- States reachable from the empty database through the exposed write
operations (`create_room`, `join_room`, `start_room`; the read operations do
not change the state). -/
inductive Reachable : DB → Prop
  | init : Reachable initDB
  | create (db : DB) (live_id : Nat) :
      Reachable db → Reachable (create_room db live_id).2
  | join (db : DB) (u rid : Nat) (d : LiveDifficulty) (h : Bool) :
      Reachable db → Reachable (join_room db u rid d h).2
  | start (db : DB) (rid : Nat) :
      Reachable db → Reachable (start_room db rid)

/-! Concrete states used to instantiate the theorems below. -/

/-- State after `create_room(live_id=100)`: room 1, empty, Waiting. -/
def dbRoom1 : DB := (create_room initDB 100).2

/-- State after user 1 joins room 1 as host. -/
def dbJoined : DB := (join_room dbRoom1 1 1 LiveDifficulty.normal true).2

/-- State after users 2, 3, 4 also join: room 1 is at capacity (4). -/
def dbFull : DB :=
  (join_room (join_room (join_room dbJoined 2 1 LiveDifficulty.normal false).2
    3 1 LiveDifficulty.hard false).2 4 1 LiveDifficulty.normal false).2

/-- A database holding one fresh room with id 1 (as after `create_room`). -/
def dbC3 : DB := ⟨[⟨1, 100, 0, 1⟩], [], 2⟩

/-! Helper lemmas about list filtering used throughout. -/

lemma mem_of_filter_eq_singleton {α : Type} {l : List α} {p : α → Bool} {x : α}
    (h : l.filter p = [x]) : x ∈ l ∧ p x = true := by
  have hx : x ∈ l.filter p := by rw [h]; exact List.mem_singleton_self x
  exact ⟨(List.mem_filter.mp hx).1, (List.mem_filter.mp hx).2⟩

lemma eq_of_filter_eq_singleton {α : Type} {l : List α} {p : α → Bool} {x y : α}
    (h : l.filter p = [x]) (hy : y ∈ l) (hpy : p y = true) : y = x := by
  have : y ∈ l.filter p := List.mem_filter.mpr ⟨hy, hpy⟩
  rw [h] at this
  exact List.mem_singleton.mp this

lemma filter_id_eq_singleton {l : List RoomRow}
    (hnd : (l.map (fun z => z.room_id)).Nodup) {r : RoomRow} {rid : Nat}
    (hr : r ∈ l) (hid : r.room_id = rid) :
    l.filter (fun z => z.room_id == rid) = [r] := by
  induction l with
  | nil => cases hr
  | cons a t ih =>
    rw [List.map_cons, List.nodup_cons] at hnd
    obtain ⟨ha, hnd'⟩ := hnd
    rcases List.mem_cons.mp hr with h | h
    · subst h
      have ht : t.filter (fun z => z.room_id == rid) = [] := by
        rw [List.filter_eq_nil_iff]
        intro x hx
        simp only [beq_iff_eq]
        intro hxe
        have : x.room_id ∈ t.map (fun z => z.room_id) :=
          List.mem_map_of_mem (fun z => z.room_id) hx
        rw [hxe, ← hid] at this
        exact ha this
      rw [List.filter_cons_of_pos (by simp [hid]), ht]
    · have hane : (a.room_id == rid) = false := by
        rw [beq_eq_false_iff_ne]
        intro hae
        have : r.room_id ∈ t.map (fun z => z.room_id) :=
          List.mem_map_of_mem (fun z => z.room_id) h
        rw [hid, ← hae] at this
        exact ha this
      rw [List.filter_cons, hane]
      exact ih hnd' h

lemma filter_id_eq_nil {l : List RoomRow} {rid : Nat}
    (h : ∀ x ∈ l, x.room_id ≠ rid) :
    l.filter (fun z => z.room_id == rid) = [] := by
  rw [List.filter_eq_nil_iff]
  intro x hx
  simp only [beq_iff_eq]
  exact h x hx

lemma filter_map_preserve (l : List RoomRow) (f : RoomRow → RoomRow)
    (hf : ∀ x, (f x).room_id = x.room_id) (rid : Nat) :
    (l.map f).filter (fun z => z.room_id == rid)
      = (l.filter (fun z => z.room_id == rid)).map f := by
  induction l with
  | nil => rfl
  | cons a t ih =>
    simp only [List.map_cons, List.filter_cons, hf]
    by_cases h : (a.room_id == rid) = true
    · simp [h, ih]
    · simp [h, ih]

lemma filter_not_map_id (l : List RoomRow) (f : RoomRow → RoomRow) (rid : Nat)
    (hfid : ∀ x, (f x).room_id = x.room_id)
    (hf : ∀ x, x.room_id ≠ rid → f x = x) :
    (l.map f).filter (fun z => !(z.room_id == rid))
      = l.filter (fun z => !(z.room_id == rid)) := by
  induction l with
  | nil => rfl
  | cons a t ih =>
    by_cases h : a.room_id = rid
    · simp only [List.map_cons, List.filter_cons, hfid, h, beq_self_eq_true,
        Bool.not_true, Bool.false_eq_true, if_false, ih]
    · have hfa : f a = a := hf a h
      have hb : (a.room_id == rid) = false := beq_eq_false_iff_ne.mpr h
      simp only [List.map_cons, List.filter_cons, hfa, hb, Bool.not_false, if_true, ih]

lemma roomsWith_nil_or_singleton (db : DB) (rid : Nat)
    (hnd : (db.rooms.map (fun z => z.room_id)).Nodup) :
    roomsWith db rid = [] ∨ ∃ r, roomsWith db rid = [r] := by
  by_cases hex : ∃ r ∈ db.rooms, r.room_id = rid
  · obtain ⟨r, hr, hid⟩ := hex
    exact Or.inr ⟨r, filter_id_eq_singleton hnd hr hid⟩
  · refine Or.inl (filter_id_eq_nil ?_)
    intro x hx hxe
    exact hex ⟨x, hx, hxe⟩

/-! Characterization of `join_room` on its execution paths. -/

lemma _update_room_user_count_eq {db : DB} {rid : Nat} {r : RoomRow} (offset : Int)
    (h1 : roomsWith db rid = [r]) :
    _update_room_user_count db rid offset =
      Except.ok { db with rooms := db.rooms.map (fun x =>
        if x.room_id == rid then
          { x with joined_user_count := r.joined_user_count + offset }
        else x) } := by
  unfold _update_room_user_count
  rw [h1]
  rfl

lemma join_room_eq_of_singleton {db : DB} {rid : Nat} {r : RoomRow} (u : Nat)
    (d : LiveDifficulty) (host : Bool) (h1 : roomsWith db rid = [r]) :
    join_room db u rid d host =
      if r.joined_user_count ≥ max_user_count then (JoinRoomResult.RoomFull, db)
      else
        match _create_room_user db rid u d host with
        | .error _ => (JoinRoomResult.OhterError, db)
        | .ok db1 =>
          match _update_room_user_count db1 rid 1 with
          | .error _ => (JoinRoomResult.OhterError, db1)
          | .ok db2 => (JoinRoomResult.Ok, db2) := by
  unfold join_room _get_room_info_by_id
  rw [h1]
  rfl

lemma join_room_of_no_room {db : DB} {u rid : Nat} {d : LiveDifficulty} {host : Bool}
    (h : roomsWith db rid = []) :
    join_room db u rid d host = (JoinRoomResult.OhterError, db) := by
  unfold join_room _get_room_info_by_id
  rw [h]
  rfl

lemma join_room_of_full {db : DB} {u rid : Nat} {d : LiveDifficulty} {host : Bool}
    {r : RoomRow} (h1 : roomsWith db rid = [r])
    (h2 : r.joined_user_count ≥ max_user_count) :
    join_room db u rid d host = (JoinRoomResult.RoomFull, db) := by
  rw [join_room_eq_of_singleton u d host h1, if_pos h2]

lemma join_room_of_dup {db : DB} {u rid : Nat} {d : LiveDifficulty} {host : Bool}
    {r : RoomRow} (h1 : roomsWith db rid = [r])
    (h2 : ¬ r.joined_user_count ≥ max_user_count)
    (h3 : db.room_users.any (fun x => x.room_id == rid && x.user_id == u) = true) :
    join_room db u rid d host = (JoinRoomResult.OhterError, db) := by
  rw [join_room_eq_of_singleton u d host h1, if_neg h2]
  unfold _create_room_user
  rw [h3]
  rfl

lemma join_match_update {db1 : DB} {rid : Nat} {r : RoomRow}
    (h : roomsWith db1 rid = [r]) :
    (match _update_room_user_count db1 rid 1 with
     | .error _ => (JoinRoomResult.OhterError, db1)
     | .ok db2 => (JoinRoomResult.Ok, db2)) =
    (JoinRoomResult.Ok,
     { db1 with rooms := db1.rooms.map (fun x =>
         if x.room_id == rid then
           { x with joined_user_count := r.joined_user_count + 1 }
         else x) }) := by
  rw [_update_room_user_count_eq 1 h]

lemma join_room_of_ok {db : DB} {u rid : Nat} {d : LiveDifficulty} {host : Bool}
    {r : RoomRow} (h1 : roomsWith db rid = [r])
    (h2 : ¬ r.joined_user_count ≥ max_user_count)
    (h3 : db.room_users.any (fun x => x.room_id == rid && x.user_id == u) = false) :
    join_room db u rid d host =
      (JoinRoomResult.Ok,
       { rooms := db.rooms.map (fun x =>
           if x.room_id == rid then
             { x with joined_user_count := r.joined_user_count + 1 }
           else x),
         room_users := db.room_users ++ [⟨rid, u, d.toNat, host⟩],
         next_room_id := db.next_room_id }) := by
  rw [join_room_eq_of_singleton u d host h1, if_neg h2]
  unfold _create_room_user
  rw [h3, if_neg Bool.false_ne_true]
  have h1' : roomsWith { db with
      room_users := db.room_users ++ [⟨rid, u, d.toNat, host⟩] } rid = [r] := h1
  exact join_match_update h1'

/-! Preservation of the structural invariant by the write operations. -/

lemma DBInv_init : DBInv initDB := by
  refine ⟨?_, ?_, ?_, ?_, ?_⟩ <;> simp [initDB, countInvariant, capacityInvariant]

lemma DBInv_create (db : DB) (live_id : Nat) (h : DBInv db) :
    DBInv (create_room db live_id).2 := by
  obtain ⟨hnd, hrb, hub, hcnt, hcap⟩ := h
  refine ⟨?_, ?_, ?_, ?_, ?_⟩
  · show (List.map (fun z => z.room_id)
        (db.rooms ++ [⟨db.next_room_id, live_id, 0, 1⟩])).Nodup
    rw [List.map_append, List.nodup_append]
    refine ⟨hnd, List.nodup_singleton _, ?_⟩
    intro a ha hb
    simp only [List.map_cons, List.map_nil, List.mem_singleton] at hb
    subst hb
    obtain ⟨y, hy, hyid⟩ := List.mem_map.mp ha
    exact absurd (hyid ▸ hrb y hy) (lt_irrefl _)
  · intro x hx
    show x.room_id < db.next_room_id + 1
    rcases List.mem_append.mp hx with hx | hx
    · exact Nat.lt_succ_of_lt (hrb x hx)
    · simp only [List.mem_singleton] at hx
      subst hx
      exact Nat.lt_succ_self _
  · intro w hw
    show w.room_id < db.next_room_id + 1
    exact Nat.lt_succ_of_lt (hub w hw)
  · intro x hx
    show x.joined_user_count
      = ((db.room_users.filter (fun w => w.room_id == x.room_id)).length : Int)
    rcases List.mem_append.mp hx with hx | hx
    · exact hcnt x hx
    · simp only [List.mem_singleton] at hx
      subst hx
      have hempty : db.room_users.filter (fun w => w.room_id == db.next_room_id) = [] := by
        rw [List.filter_eq_nil_iff]
        intro w hw
        simp only [beq_iff_eq]
        exact fun he => absurd (he ▸ hub w hw) (lt_irrefl _)
      show (0 : Int)
        = ((db.room_users.filter (fun w => w.room_id == db.next_room_id)).length : Int)
      rw [hempty]
      rfl
  · intro x hx
    rcases List.mem_append.mp hx with hx | hx
    · exact hcap x hx
    · simp only [List.mem_singleton] at hx
      subst hx
      show (0 : Int) ≤ 0 ∧ (0 : Int) ≤ max_user_count
      norm_num [max_user_count]

lemma DBInv_map (db : DB) (f : RoomRow → RoomRow)
    (hfid : ∀ x, (f x).room_id = x.room_id)
    (hfcnt : ∀ x, (f x).joined_user_count = x.joined_user_count)
    (h : DBInv db) : DBInv { db with rooms := db.rooms.map f } := by
  obtain ⟨hnd, hrb, hub, hcnt, hcap⟩ := h
  have hids : List.map (fun z => z.room_id) (db.rooms.map f)
      = List.map (fun z => z.room_id) db.rooms := by
    rw [List.map_map]
    exact List.map_congr_left (fun x _ => hfid x)
  refine ⟨?_, ?_, ?_, ?_, ?_⟩
  · show (List.map (fun z => z.room_id) (db.rooms.map f)).Nodup
    rw [hids]
    exact hnd
  · intro x hx
    obtain ⟨y, hy, rfl⟩ := List.mem_map.mp hx
    show (f y).room_id < db.next_room_id
    rw [hfid]
    exact hrb y hy
  · intro w hw
    exact hub w hw
  · intro x hx
    obtain ⟨y, hy, rfl⟩ := List.mem_map.mp hx
    show (f y).joined_user_count
      = ((db.room_users.filter (fun w => w.room_id == (f y).room_id)).length : Int)
    rw [hfid, hfcnt]
    exact hcnt y hy
  · intro x hx
    obtain ⟨y, hy, rfl⟩ := List.mem_map.mp hx
    show 0 ≤ (f y).joined_user_count ∧ (f y).joined_user_count ≤ max_user_count
    rw [hfcnt]
    exact hcap y hy

lemma DBInv_start (db : DB) (rid : Nat) (h : DBInv db) : DBInv (start_room db rid) := by
  have h1 : ∀ x : RoomRow,
      ((if x.room_id == rid then
          { x with status := WaitRoomStatus.LiveStart.toNat } else x) : RoomRow).room_id
        = x.room_id := by
    intro x
    by_cases hx : (x.room_id == rid) = true <;> simp [hx]
  have h2 : ∀ x : RoomRow,
      ((if x.room_id == rid then
          { x with status := WaitRoomStatus.LiveStart.toNat } else x) : RoomRow).joined_user_count
        = x.joined_user_count := by
    intro x
    by_cases hx : (x.room_id == rid) = true <;> simp [hx]
  exact DBInv_map db _ h1 h2 h

lemma DBInv_join_ok (db : DB) (u rid dn : Nat) (host : Bool) (r : RoomRow)
    (h : DBInv db) (h1 : roomsWith db rid = [r])
    (h2 : ¬ r.joined_user_count ≥ max_user_count) :
    DBInv { rooms := db.rooms.map (fun x =>
              if x.room_id == rid then
                { x with joined_user_count := r.joined_user_count + 1 }
              else x),
            room_users := db.room_users ++ [⟨rid, u, dn, host⟩],
            next_room_id := db.next_room_id } := by
  obtain ⟨hnd, hrb, hub, hcnt, hcap⟩ := h
  obtain ⟨hrmem, hrbeq⟩ := mem_of_filter_eq_singleton h1
  have hrid : r.room_id = rid := beq_iff_eq.mp hrbeq
  have hfid : ∀ x : RoomRow,
      ((if x.room_id == rid then
          { x with joined_user_count := r.joined_user_count + 1 } else x) : RoomRow).room_id
        = x.room_id := by
    intro x
    by_cases hx : (x.room_id == rid) = true <;> simp [hx]
  have hids : List.map (fun z => z.room_id)
        (db.rooms.map (fun x =>
          if x.room_id == rid then
            { x with joined_user_count := r.joined_user_count + 1 }
          else x))
      = List.map (fun z => z.room_id) db.rooms := by
    rw [List.map_map]
    exact List.map_congr_left (fun x _ => hfid x)
  have husers : ∀ z : Nat,
      ((db.room_users ++ [(⟨rid, u, dn, host⟩ : RoomUserRow)]).filter
          (fun w => w.room_id == z)).length
        = (db.room_users.filter (fun w => w.room_id == z)).length
          + (if rid = z then 1 else 0) := by
    intro z
    rw [List.filter_append, List.length_append]
    by_cases hz : rid = z
    · simp [hz]
    · simp [hz]
  refine ⟨?_, ?_, ?_, ?_, ?_⟩
  · show (List.map (fun z => z.room_id)
        (db.rooms.map (fun x =>
          if x.room_id == rid then
            { x with joined_user_count := r.joined_user_count + 1 }
          else x))).Nodup
    rw [hids]
    exact hnd
  · intro x hx
    obtain ⟨y, hy, rfl⟩ := List.mem_map.mp hx
    show ((if y.room_id == rid then
        { y with joined_user_count := r.joined_user_count + 1 } else y) : RoomRow).room_id
      < db.next_room_id
    rw [hfid]
    exact hrb y hy
  · intro w hw
    rcases List.mem_append.mp hw with hw | hw
    · exact hub w hw
    · simp only [List.mem_singleton] at hw
      subst hw
      show rid < db.next_room_id
      rw [← hrid]
      exact hrb r hrmem
  · intro x hx
    obtain ⟨y, hy, rfl⟩ := List.mem_map.mp hx
    by_cases hy' : (y.room_id == rid) = true
    · have hyr : y = r := eq_of_filter_eq_singleton h1 hy hy'
      have hfr : ((if y.room_id == rid then
          { y with joined_user_count := r.joined_user_count + 1 } else y) : RoomRow)
          = { y with joined_user_count := r.joined_user_count + 1 } := if_pos hy'
      rw [hfr]
      show r.joined_user_count + 1
        = (((db.room_users ++ [(⟨rid, u, dn, host⟩ : RoomUserRow)]).filter
            (fun w => w.room_id == y.room_id)).length : Int)
      rw [husers y.room_id, if_pos (beq_iff_eq.mp hy').symm]
      have hold : y.joined_user_count
          = ((db.room_users.filter (fun w => w.room_id == y.room_id)).length : Int) :=
        hcnt y hy
      rw [← hyr, hold]
      push_cast
      ring
    · have hfr : ((if y.room_id == rid then
          { y with joined_user_count := r.joined_user_count + 1 } else y) : RoomRow) = y :=
        if_neg (by simp only [hy']; exact Bool.false_ne_true)
      rw [hfr]
      show y.joined_user_count
        = (((db.room_users ++ [(⟨rid, u, dn, host⟩ : RoomUserRow)]).filter
            (fun w => w.room_id == y.room_id)).length : Int)
      rw [husers y.room_id, if_neg (fun he => hy' (beq_iff_eq.mpr he.symm))]
      have hold : y.joined_user_count
          = ((db.room_users.filter (fun w => w.room_id == y.room_id)).length : Int) :=
        hcnt y hy
      rw [hold]
      norm_num
  · intro x hx
    obtain ⟨y, hy, rfl⟩ := List.mem_map.mp hx
    by_cases hy' : (y.room_id == rid) = true
    · have hyr : y = r := eq_of_filter_eq_singleton h1 hy hy'
      have hfr : ((if y.room_id == rid then
          { y with joined_user_count := r.joined_user_count + 1 } else y) : RoomRow)
          = { y with joined_user_count := r.joined_user_count + 1 } := if_pos hy'
      rw [hfr]
      show 0 ≤ r.joined_user_count + 1 ∧ r.joined_user_count + 1 ≤ max_user_count
      have hmax : max_user_count = 4 := rfl
      have h0 := (hcap y hy).1
      rw [hyr] at h0
      rw [hmax]
      rw [hmax] at h2
      constructor <;> omega
    · have hfr : ((if y.room_id == rid then
          { y with joined_user_count := r.joined_user_count + 1 } else y) : RoomRow) = y :=
        if_neg (by simp only [hy']; exact Bool.false_ne_true)
      rw [hfr]
      exact hcap y hy

lemma DBInv_join (db : DB) (u rid : Nat) (d : LiveDifficulty) (host : Bool)
    (h : DBInv db) : DBInv (join_room db u rid d host).2 := by
  rcases roomsWith_nil_or_singleton db rid h.1 with hnil | ⟨r, hr⟩
  · rw [join_room_of_no_room hnil]
    exact h
  · by_cases hfull : r.joined_user_count ≥ max_user_count
    · rw [join_room_of_full hr hfull]
      exact h
    · cases hdup : db.room_users.any (fun x => x.room_id == rid && x.user_id == u) with
      | true =>
        rw [join_room_of_dup hr hfull hdup]
        exact h
      | false =>
        rw [join_room_of_ok hr hfull hdup]
        exact DBInv_join_ok db u rid d.toNat host r h hr hfull

lemma reachable_DBInv {db : DB} (h : Reachable db) : DBInv db := by
  induction h with
  | init => exact DBInv_init
  | create db l _ ih => exact DBInv_create db l ih
  | join db u rid d host _ ih => exact DBInv_join db u rid d host ih
  | start db rid _ ih => exact DBInv_start db rid ih

/-! Further characterization lemmas and reachability of the concrete states. -/

lemma join_room_of_pyOne_error {db : DB} {u rid : Nat} {d : LiveDifficulty}
    {host : Bool} {e : DBError} (h : pyOne (roomsWith db rid) = .error e) :
    join_room db u rid d host = (JoinRoomResult.OhterError, db) := by
  unfold join_room _get_room_info_by_id
  rw [h]

lemma join_room_eq_of_pyOne_ok {db : DB} {rid : Nat} {row : RoomRow} (u : Nat)
    (d : LiveDifficulty) (host : Bool) (h : pyOne (roomsWith db rid) = .ok row) :
    join_room db u rid d host =
      if row.joined_user_count ≥ max_user_count then (JoinRoomResult.RoomFull, db)
      else
        match _create_room_user db rid u d host with
        | .error _ => (JoinRoomResult.OhterError, db)
        | .ok db1 =>
          match _update_room_user_count db1 rid 1 with
          | .error _ => (JoinRoomResult.OhterError, db1)
          | .ok db2 => (JoinRoomResult.Ok, db2) := by
  unfold join_room _get_room_info_by_id
  rw [h]

/-- The `Disbanded` branch of `join_room` is dead code: `.one()` raises on a
missing row instead of returning `None`, so `_get_room_info_by_id` never
yields `none` and no call of `join_room` can return `Disbanded`. -/
theorem join_room_never_Disbanded (db : DB) (u rid : Nat) (d : LiveDifficulty)
    (host : Bool) : (join_room db u rid d host).1 ≠ JoinRoomResult.Disbanded := by
  cases hp : pyOne (roomsWith db rid) with
  | error e =>
    rw [join_room_of_pyOne_error hp]
    simp
  | ok row =>
    rw [join_room_eq_of_pyOne_ok u d host hp]
    by_cases hc : row.joined_user_count ≥ max_user_count
    · rw [if_pos hc]
      simp
    · rw [if_neg hc]
      cases hcr : _create_room_user db rid u d host with
      | error e => simp
      | ok db1 =>
        show (match _update_room_user_count db1 rid 1 with
              | .error _ => (JoinRoomResult.OhterError, db1)
              | .ok db2 => (JoinRoomResult.Ok, db2)).1 ≠ JoinRoomResult.Disbanded
        cases hup : _update_room_user_count db1 rid 1 with
        | error e => simp
        | ok db2 => simp

lemma reachable_dbRoom1 : Reachable dbRoom1 :=
  Reachable.create initDB 100 Reachable.init

lemma reachable_dbJoined : Reachable dbJoined :=
  Reachable.join dbRoom1 1 1 LiveDifficulty.normal true reachable_dbRoom1

lemma reachable_dbFull : Reachable dbFull :=
  Reachable.join _ 4 1 LiveDifficulty.normal false
    (Reachable.join _ 3 1 LiveDifficulty.hard false
      (Reachable.join dbJoined 2 1 LiveDifficulty.normal false reachable_dbJoined))

/-! Claim theorems. -/

/-- C2: the claim says joining a nonexistent `room_id` returns `Disbanded`.
The code disagrees: `_get_room_info_by_id` uses `CursorResult.one()`, which
raises `NoResultFound` on a missing row, so the `room_info is None` branch is
dead and the catch-all returns `OhterError` instead.  Evaluating the code at
the failing input — joining room 1 in the empty database — yields
`OhterError` (not `Disbanded`), with no membership row written (the state is
unchanged, which is the part of the claim the code does satisfy). -/
theorem C2_join_nonexistent_room_returns_OhterError :
    join_room initDB 1 1 LiveDifficulty.normal false
      = (JoinRoomResult.OhterError, initDB) := rfl

/-- C3: the claim says an unexpected storage error during join returns
`OtherError` AND leaves the stored state exactly as before.  The code returns
`OhterError` but, because the `except` clause sits INSIDE
`with engine.begin():` and returns normally, the transaction commits the
statements that already ran.  With one fresh room (id 1, count 0), a storage
fault at the count-update step (after the membership INSERT succeeded) leaves
the `room_user` row for user 7 committed while `joined_user_count` stays 0 —
a partially-applied state violating the count consistency invariant. -/
theorem C3_storage_error_commits_partial_join :
    join_room_fault dbC3 7 1 LiveDifficulty.normal true (some JoinStep.updateCount)
      = (JoinRoomResult.OhterError,
         ⟨[⟨1, 100, 0, 1⟩], [⟨1, 7, 1, true⟩], 2⟩) ∧
    ¬ countInvariant (join_room_fault dbC3 7 1 LiveDifficulty.normal true
        (some JoinStep.updateCount)).2 := by
  constructor
  · rfl
  · intro hc
    exact absurd (hc ⟨1, 100, 0, 1⟩ (by decide)) (by decide)

/-- C4: in every state reachable through the exposed write operations, each
room's `joined_user_count` equals the number of `room_user` rows whose
`room_id` references that room. -/
theorem C4_count_matches_membership_rows (db : DB) (h : Reachable db) :
    countInvariant db :=
  (reachable_DBInv h).2.2.2.1

theorem C4_count_matches_membership_rows_witness :
    Reachable dbJoined ∧ countInvariant dbJoined :=
  ⟨reachable_dbJoined,
   C4_count_matches_membership_rows dbJoined reachable_dbJoined⟩

/-- C5: in every state reachable through the exposed write operations, each
room's `joined_user_count` lies between 0 and `max_user_count` (4). -/
theorem C5_count_within_bounds (db : DB) (h : Reachable db) :
    capacityInvariant db :=
  (reachable_DBInv h).2.2.2.2

theorem C5_count_within_bounds_witness :
    Reachable dbFull ∧ capacityInvariant dbFull :=
  ⟨reachable_dbFull, C5_count_within_bounds dbFull reachable_dbFull⟩

/-- C6: joining an existing room whose `joined_user_count` is already at least
`max_user_count` (4) returns `RoomFull` and leaves the stored state entirely
unchanged — no membership row inserted, no count change. -/
theorem C6_join_full_room (db : DB) (u rid : Nat) (d : LiveDifficulty)
    (host : Bool) (r : RoomRow) (hreach : Reachable db) (hr : r ∈ db.rooms)
    (hid : r.room_id = rid) (hfull : r.joined_user_count ≥ max_user_count) :
    join_room db u rid d host = (JoinRoomResult.RoomFull, db) := by
  have hnd := (reachable_DBInv hreach).1
  exact join_room_of_full (filter_id_eq_singleton hnd hr hid) hfull

theorem C6_join_full_room_witness :
    (Reachable dbFull ∧ (⟨1, 100, 4, 1⟩ : RoomRow) ∈ dbFull.rooms ∧
      (⟨1, 100, 4, 1⟩ : RoomRow).room_id = 1 ∧
      (⟨1, 100, 4, 1⟩ : RoomRow).joined_user_count ≥ max_user_count) ∧
    join_room dbFull 9 1 LiveDifficulty.normal false
      = (JoinRoomResult.RoomFull, dbFull) :=
  ⟨⟨reachable_dbFull, by decide, rfl, by decide⟩,
   C6_join_full_room dbFull 9 1 LiveDifficulty.normal false ⟨1, 100, 4, 1⟩
     reachable_dbFull (by decide) rfl (by decide)⟩

/-- C7: joining an existing room with `joined_user_count` strictly below 4,
when no storage error occurs (here: the `(room_id, user_id)` key is not
already taken), returns `Ok`, appends exactly one membership row carrying the
given `room_id`, `user_id`, `live_difficulty` and `is_host`, increments that
room's count by exactly 1 while keeping its `live_id` and `status`, and
changes no other room and no counter. -/
theorem C7_join_success (db : DB) (u rid : Nat) (d : LiveDifficulty)
    (host : Bool) (r : RoomRow) (hreach : Reachable db) (hr : r ∈ db.rooms)
    (hid : r.room_id = rid) (hcap : r.joined_user_count < max_user_count)
    (hnew : ∀ w ∈ db.room_users, ¬(w.room_id = rid ∧ w.user_id = u)) :
    (join_room db u rid d host).1 = JoinRoomResult.Ok ∧
    (join_room db u rid d host).2.room_users
      = db.room_users ++ [⟨rid, u, d.toNat, host⟩] ∧
    roomsWith (join_room db u rid d host).2 rid
      = [{ r with joined_user_count := r.joined_user_count + 1 }] ∧
    (join_room db u rid d host).2.rooms.filter (fun z => !(z.room_id == rid))
      = db.rooms.filter (fun z => !(z.room_id == rid)) ∧
    (join_room db u rid d host).2.next_room_id = db.next_room_id := by
  have hnd := (reachable_DBInv hreach).1
  have h1 : roomsWith db rid = [r] := filter_id_eq_singleton hnd hr hid
  have hbeq : (r.room_id == rid) = true := beq_iff_eq.mpr hid
  have hfull : ¬ r.joined_user_count ≥ max_user_count := not_le.mpr hcap
  have hdup : db.room_users.any (fun x => x.room_id == rid && x.user_id == u)
      = false := by
    rw [List.any_eq_false]
    intro w hw hww
    rw [Bool.and_eq_true, beq_iff_eq, beq_iff_eq] at hww
    exact hnew w hw hww
  have hfid : ∀ x : RoomRow, ((if x.room_id == rid then
      { x with joined_user_count := r.joined_user_count + 1 } else x) : RoomRow).room_id
        = x.room_id := by
    intro x
    by_cases hx : (x.room_id == rid) = true <;> simp [hx]
  rw [join_room_of_ok h1 hfull hdup]
  refine ⟨rfl, rfl, ?_, ?_, rfl⟩
  · show (db.rooms.map (fun x => if x.room_id == rid then
        { x with joined_user_count := r.joined_user_count + 1 } else x)).filter
        (fun z => z.room_id == rid)
      = [{ r with joined_user_count := r.joined_user_count + 1 }]
    rw [filter_map_preserve _ _ hfid rid]
    have h1' : db.rooms.filter (fun z => z.room_id == rid) = [r] := h1
    rw [h1']
    simp only [List.map_cons, List.map_nil]
    rw [if_pos hbeq]
  · show (db.rooms.map (fun x => if x.room_id == rid then
        { x with joined_user_count := r.joined_user_count + 1 } else x)).filter
        (fun z => !(z.room_id == rid))
      = db.rooms.filter (fun z => !(z.room_id == rid))
    exact filter_not_map_id db.rooms _ rid hfid
      (fun x hx => if_neg (fun hc => hx (beq_iff_eq.mp hc)))

theorem C7_join_success_witness :
    (join_room dbRoom1 5 1 LiveDifficulty.hard false).1 = JoinRoomResult.Ok ∧
    (join_room dbRoom1 5 1 LiveDifficulty.hard false).2.room_users
      = dbRoom1.room_users ++ [⟨1, 5, 2, false⟩] ∧
    roomsWith (join_room dbRoom1 5 1 LiveDifficulty.hard false).2 1
      = [⟨1, 100, 1, 1⟩] ∧
    (join_room dbRoom1 5 1 LiveDifficulty.hard false).2.rooms.filter
        (fun z => !(z.room_id == 1))
      = dbRoom1.rooms.filter (fun z => !(z.room_id == 1)) ∧
    (join_room dbRoom1 5 1 LiveDifficulty.hard false).2.next_room_id
      = dbRoom1.next_room_id :=
  C7_join_success dbRoom1 5 1 LiveDifficulty.hard false ⟨1, 100, 0, 1⟩
    reachable_dbRoom1 (by decide) rfl (by decide) (by decide)

/-- C8: `start_room` on an existing room sets that room's `status` to
`LiveStart` (2) whatever it was before, so a subsequent `get_room_status`
returns `LiveStart`; the room's other fields, all other rooms, the membership
table and the id counter are untouched. -/
theorem C8_start_room_sets_LiveStart (db : DB) (rid : Nat) (r : RoomRow)
    (hreach : Reachable db) (hr : r ∈ db.rooms) (hid : r.room_id = rid) :
    get_room_status (start_room db rid) rid
      = Except.ok ⟨rid, WaitRoomStatus.LiveStart.toNat⟩ ∧
    roomsWith (start_room db rid) rid
      = [{ r with status := WaitRoomStatus.LiveStart.toNat }] ∧
    (start_room db rid).rooms.filter (fun z => !(z.room_id == rid))
      = db.rooms.filter (fun z => !(z.room_id == rid)) ∧
    (start_room db rid).room_users = db.room_users ∧
    (start_room db rid).next_room_id = db.next_room_id := by
  have hnd := (reachable_DBInv hreach).1
  have h1 : db.rooms.filter (fun z => z.room_id == rid) = [r] :=
    filter_id_eq_singleton hnd hr hid
  have hbeq : (r.room_id == rid) = true := beq_iff_eq.mpr hid
  have hfid : ∀ x : RoomRow, ((if x.room_id == rid then
      { x with status := WaitRoomStatus.LiveStart.toNat } else x) : RoomRow).room_id
        = x.room_id := by
    intro x
    by_cases hx : (x.room_id == rid) = true <;> simp [hx]
  have hsingle : roomsWith (start_room db rid) rid
      = [{ r with status := WaitRoomStatus.LiveStart.toNat }] := by
    show (db.rooms.map (fun x => if x.room_id == rid then
        { x with status := WaitRoomStatus.LiveStart.toNat } else x)).filter
        (fun z => z.room_id == rid)
      = [{ r with status := WaitRoomStatus.LiveStart.toNat }]
    rw [filter_map_preserve _ _ hfid rid, h1]
    simp only [List.map_cons, List.map_nil]
    rw [if_pos hbeq]
  refine ⟨?_, hsingle, ?_, rfl, rfl⟩
  · unfold get_room_status
    rw [hsingle]
    show (Except.ok (⟨r.room_id, WaitRoomStatus.LiveStart.toNat⟩ : RoomStatus)
        : Except DBError RoomStatus)
      = Except.ok ⟨rid, WaitRoomStatus.LiveStart.toNat⟩
    rw [hid]
  · show (db.rooms.map (fun x => if x.room_id == rid then
        { x with status := WaitRoomStatus.LiveStart.toNat } else x)).filter
        (fun z => !(z.room_id == rid))
      = db.rooms.filter (fun z => !(z.room_id == rid))
    exact filter_not_map_id db.rooms _ rid hfid
      (fun x hx => if_neg (fun hc => hx (beq_iff_eq.mp hc)))

theorem C8_start_room_sets_LiveStart_witness :
    get_room_status (start_room dbJoined 1) 1 = Except.ok ⟨1, 2⟩ ∧
    roomsWith (start_room dbJoined 1) 1 = [⟨1, 100, 1, 2⟩] ∧
    (start_room dbJoined 1).rooms.filter (fun z => !(z.room_id == 1))
      = dbJoined.rooms.filter (fun z => !(z.room_id == 1)) ∧
    (start_room dbJoined 1).room_users = dbJoined.room_users ∧
    (start_room dbJoined 1).next_room_id = dbJoined.next_room_id :=
  C8_start_room_sets_LiveStart dbJoined 1 ⟨1, 100, 1, 1⟩ reachable_dbJoined
    (by decide) rfl

/-- C9: `get_room_status` returns the pair `{room_id, status}` for an existing
room, and fails with the raised `NoResultFound` error — not a special enum
value — exactly when no room row with that id exists.  The operation is
read-only in the source (a single SELECT), so the stored state is unchanged
either way. -/
theorem C9_get_room_status_spec (db : DB) (rid : Nat) (hreach : Reachable db) :
    ((∃ r ∈ db.rooms, r.room_id = rid) →
      ∃ r ∈ db.rooms, r.room_id = rid ∧
        get_room_status db rid = Except.ok ⟨rid, r.status⟩) ∧
    (get_room_status db rid = Except.error DBError.noResultFound
      ↔ ¬ ∃ r ∈ db.rooms, r.room_id = rid) := by
  have hnd := (reachable_DBInv hreach).1
  constructor
  · rintro ⟨r, hr, hid⟩
    have h1 : roomsWith db rid = [r] := filter_id_eq_singleton hnd hr hid
    refine ⟨r, hr, hid, ?_⟩
    unfold get_room_status
    rw [h1]
    show (Except.ok (⟨r.room_id, r.status⟩ : RoomStatus) : Except DBError RoomStatus)
      = Except.ok ⟨rid, r.status⟩
    rw [hid]
  · by_cases hex : ∃ r ∈ db.rooms, r.room_id = rid
    · obtain ⟨r, hr, hid⟩ := hex
      have h1 : roomsWith db rid = [r] := filter_id_eq_singleton hnd hr hid
      have hok : get_room_status db rid = Except.ok ⟨r.room_id, r.status⟩ := by
        unfold get_room_status
        rw [h1]
        rfl
      constructor
      · intro he
        rw [hok] at he
        simp at he
      · intro hne
        exact absurd ⟨r, hr, hid⟩ hne
    · have hnil : roomsWith db rid = [] := by
        apply filter_id_eq_nil
        intro x hx hxe
        exact hex ⟨x, hx, hxe⟩
      have herr : get_room_status db rid = Except.error DBError.noResultFound := by
        unfold get_room_status
        rw [hnil]
        rfl
      exact ⟨fun _ => hex, fun _ => herr⟩

theorem C9_get_room_status_spec_witness :
    ((∃ r ∈ dbRoom1.rooms, r.room_id = 1) →
      ∃ r ∈ dbRoom1.rooms, r.room_id = 1 ∧
        get_room_status dbRoom1 1 = Except.ok ⟨1, r.status⟩) ∧
    (get_room_status dbRoom1 1 = Except.error DBError.noResultFound
      ↔ ¬ ∃ r ∈ dbRoom1.rooms, r.room_id = 1) :=
  C9_get_room_status_spec dbRoom1 1 reachable_dbRoom1

/-- C10: `start_room` on a `room_id` with no room row is a silent no-op: the
UPDATE matches zero rows, which the storage layer does not treat as an error,
so the call completes normally and the stored state is exactly unchanged —
in contrast to `get_room_status`, whose `.one()` raises on a missing room. -/
theorem C10_start_room_missing_room_is_noop (db : DB) (rid : Nat)
    (h : ¬ ∃ r ∈ db.rooms, r.room_id = rid) :
    start_room db rid = db := by
  have hpt : ∀ x ∈ db.rooms, (if x.room_id == rid then
      ({ x with status := WaitRoomStatus.LiveStart.toNat } : RoomRow) else x) = x := by
    intro x hx
    exact if_neg (fun hc => h ⟨x, hx, beq_iff_eq.mp hc⟩)
  have hmap : db.rooms.map (fun x => if x.room_id == rid then
      { x with status := WaitRoomStatus.LiveStart.toNat } else x) = db.rooms := by
    have h2 := List.map_congr_left hpt
    rw [h2, List.map_id']
  show { db with rooms := db.rooms.map (fun x => if x.room_id == rid then
      { x with status := WaitRoomStatus.LiveStart.toNat } else x) } = db
  rw [hmap]

theorem C10_start_room_missing_room_is_noop_witness :
    (¬ ∃ r ∈ initDB.rooms, r.room_id = 7) ∧ start_room initDB 7 = initDB :=
  ⟨by decide, C10_start_room_missing_room_is_noop initDB 7 (by decide)⟩
